import Mathlib

/-!
Verification of the pgd reconciliation engine.

Shallow embedding of the Rust sources:
- `src/config.rs`: `PostgresVersion` and project configuration.
- `src/state.rs`: `InstanceState`, the ledger document and its JSON shape.
- `src/controller/utils.rs`: `find_available_port`.
- `src/controller/docker.rs`: inspect-result handling (`container_exists`,
  `container_exists_by_id`) and image download (`ensure_version_downloaded`).
- `src/controller/reconciler.rs`: `Reconciler::reconcile` and its helpers.
- `src/controller.rs`: the legacy `Controller::ensure_container_running`.

Effectful container-daemon calls are modelled by an oracle structure
(`DockerOracle`) fixing the daemon's responses, and every operation returns
its result together with the list of externally visible events it performed,
in order.  Machine integers (u16/u32/u64) are modelled as `Nat`; none of the
verified claims exercises overflow.
-/

namespace Pgd

/-- `PostgresVersion` from src/config.rs: a (major, minor) pair of u32.
The Rust type derives `PartialOrd, Ord`, i.e. the lexicographic order. -/
structure PostgresVersion where
  major : Nat
  minor : Nat
deriving DecidableEq, Repr

/-- The Rust derived `Ord` on `PostgresVersion`: strict lexicographic
comparison on (major, minor). -/
def pv_lt (a b : PostgresVersion) : Bool :=
  decide (a.major < b.major) ||
    (decide (a.major = b.major) && decide (a.minor < b.minor))

/-- `Display for PostgresVersion` (src/config.rs): renders "MAJOR.MINOR". -/
def ver_string (v : PostgresVersion) : String :=
  toString v.major ++ "." ++ toString v.minor

/-- Substring occurrence test on character lists (used to state that an error
message names a version). -/
def contains_chars (needle : List Char) : List Char → Bool
  | [] => needle.isEmpty
  | c :: rest => needle.isPrefixOf (c :: rest) || contains_chars needle rest

/-- `msg` names version `v`: the rendered "MAJOR.MINOR" string occurs in
`msg`. -/
def names_version (msg : String) (v : PostgresVersion) : Bool :=
  contains_chars (ver_string v).toList msg.toList

/-- The upgrade-refusal message from
`Reconciler::ensure_matches_project_version` (src/controller/reconciler.rs,
`bail!("Upgrades are currently unsupported! :(")`). -/
def upgrade_msg : String := "Upgrades are currently unsupported! :("

/-- The downgrade-refusal message from
`Reconciler::ensure_matches_project_version`; `actual` is the observed
container version and `desired` the configured one. -/
def downgrade_msg (actual desired : PostgresVersion) : String :=
  "Cannot downgrade PostgreSQL from " ++ ver_string actual ++ " to " ++
    ver_string desired ++ ". Downgrades are not supported."

/-- `Reconciler::ensure_matches_project_version` (src/controller/reconciler.rs
lines 202-241): `desired` is `project.config.version`, `actual` the version
read back from the container label.  Mirrors
`if container_version != project.config.version { if container_version <
project.config.version { bail!(upgrade) } else { bail!(downgrade) } }`. -/
def ensure_matches_project_version (desired actual : PostgresVersion) :
    Except String Unit :=
  if actual ≠ desired then
    if pv_lt actual desired then Except.error upgrade_msg
    else Except.error (downgrade_msg actual desired)
  else Except.ok ()

/-- Outcome of one `inspect_container` daemon call, as seen by the match arms
in src/controller/docker.rs: success, a `DockerResponseServerError` carrying
an HTTP status code, or any other client error. -/
inductive InspectResult where
  | found
  | serverError (status : Nat) (msg : String)
  | otherError (msg : String)
deriving DecidableEq, Repr

/-- `DockerController::container_exists_by_id` (src/controller/docker.rs lines
194-208): `Ok(_) => Ok(true)`, server error with status 404 => `Ok(false)`,
any other error is wrapped and propagated. -/
def container_exists_by_id (r : InspectResult) : Except String Bool :=
  match r with
  | .found => Except.ok true
  | .serverError status msg =>
      if status = 404 then Except.ok false
      else Except.error ("Failed to inspect container by ID: " ++ msg)
  | .otherError msg =>
      Except.error ("Failed to inspect container by ID: " ++ msg)

/-- `DockerController::container_exists` (src/controller/docker.rs lines
99-113): identical handling, with the wrap message "Failed to inspect
container". -/
def container_exists (r : InspectResult) : Except String Bool :=
  match r with
  | .found => Except.ok true
  | .serverError status msg =>
      if status = 404 then Except.ok false
      else Except.error ("Failed to inspect container: " ++ msg)
  | .otherError msg =>
      Except.error ("Failed to inspect container: " ++ msg)

/-- `InstanceState` from src/state.rs (lines 7-29), field for field and in
declaration order.  `last_started_at` is `Option<u64>`. -/
structure InstanceState where
  container_id : String
  postgres_version : String
  database_name : String
  user_name : String
  port : Nat
  created_at : Nat
  last_started_at : Option Nat
deriving DecidableEq, Repr

/-- `InstanceState::new` (src/state.rs lines 150-171); the
`SystemTime::now()` unix timestamp is made an explicit argument `now`. -/
def InstanceState.new (container_id postgres_version database_name user_name :
    String) (port : Nat) (now : Nat) : InstanceState :=
  { container_id := container_id
    postgres_version := postgres_version
    database_name := database_name
    user_name := user_name
    port := port
    created_at := now
    last_started_at := some now }

/-- Minimal JSON value type, standing in for the serde_json data model. -/
inductive Jx where
  | jnull
  | jstr (s : String)
  | jnum (n : Nat)
  | jobj (fields : List (String × Jx))

/-- serde serialization of `Option<u64>`: `None` becomes `null`. -/
def option_nat_to_jx : Option Nat → Jx
  | none => Jx.jnull
  | some n => Jx.jnum n

/-- The derived `Serialize` for `InstanceState` (src/state.rs): every field is
emitted, in declaration order, under its field name. -/
def instance_state_to_jx (s : InstanceState) : Jx :=
  Jx.jobj [("container_id", Jx.jstr s.container_id),
           ("postgres_version", Jx.jstr s.postgres_version),
           ("database_name", Jx.jstr s.database_name),
           ("user_name", Jx.jstr s.user_name),
           ("port", Jx.jnum s.port),
           ("created_at", Jx.jnum s.created_at),
           ("last_started_at", option_nat_to_jx s.last_started_at)]

/-- The derived `Serialize` for `StateManager` (src/state.rs lines 32-37): a
top-level object with the single field `instances`, a map from project name
to serialized record. -/
def state_manager_to_jx (instances : List (String × InstanceState)) : Jx :=
  Jx.jobj [("instances",
            Jx.jobj (instances.map (fun kv => (kv.1, instance_state_to_jx kv.2))))]

/-- Field names of a JSON object (empty for non-objects). -/
def jx_field_names : Jx → List String
  | Jx.jobj fields => fields.map Prod.fst
  | _ => []

/-- `DEFAULT_POSTGRES_PORT` from src/controller/utils.rs. -/
def DEFAULT_POSTGRES_PORT : Nat := 5432

/-- `PORT_SEARCH_RANGE` from src/controller/utils.rs. -/
def PORT_SEARCH_RANGE : Nat := 100

/-- Modelled from the spec: `StateManager::get_highest_used_port` is called by
`find_available_port` (src/controller/utils.rs) but its definition is not in
the sources; per spec section 4.3 it "scans current records for the maximum
port ...; returns none if the ledger is empty". -/
def get_highest_used_port (instances : List (String × InstanceState)) :
    Option Nat :=
  match instances.map (fun kv => kv.2.port) with
  | [] => none
  | p :: ps => some (ps.foldl Nat.max p)

/-- The `miette::bail!` message of `find_available_port`; note it always
renders the default range regardless of the actual starting port. -/
def port_exhaust_msg : String :=
  "No available ports found in range " ++ toString DEFAULT_POSTGRES_PORT ++
    "-" ++ toString (DEFAULT_POSTGRES_PORT + PORT_SEARCH_RANGE - 1)

/-- The linear probe over the half-open range `start..end_`, iterating
`end_ - start` times (a Rust `Range<u16>` yields nothing when
`end_ <= start`); `bindable` abstracts `TcpListener::bind` succeeding on a
port.  `fuel` is the number of ports left to probe. -/
def port_probe (bindable : Nat → Bool) : Nat → Nat → Except String Nat
  | _, 0 => Except.error port_exhaust_msg
  | port, fuel + 1 =>
      if bindable port then Except.ok port
      else port_probe bindable (port + 1) fuel

/-- `starting_port` of `find_available_port` (src/controller/utils.rs lines
11-13): `state.get_highest_used_port().unwrap_or(DEFAULT_POSTGRES_PORT)`. -/
def probe_start (instances : List (String × InstanceState)) : Nat :=
  (get_highest_used_port instances).getD DEFAULT_POSTGRES_PORT

/-- The range's end bound `starting_port + PORT_SEARCH_RANGE`
(src/controller/utils.rs line 15): a u16 addition, so it wraps modulo 2^16.
The wrap reflects release-build semantics; a debug build panics on the same
overflow, so in either build no port is returned once the addition
overflows. -/
def probe_end (instances : List (String × InstanceState)) : Nat :=
  (probe_start instances + PORT_SEARCH_RANGE) % 65536

/-- The number of ports the `for port in starting_port..end` loop visits:
`end - starting_port`, zero when the u16 end bound wrapped below the start. -/
def probe_window (instances : List (String × InstanceState)) : Nat :=
  probe_end instances - probe_start instances

/-- `find_available_port` (src/controller/utils.rs lines 8-26): the linear
probe over `starting_port..(starting_port + PORT_SEARCH_RANGE)` with u16
range semantics. -/
def find_available_port (bindable : Nat → Bool)
    (instances : List (String × InstanceState)) : Except String Nat :=
  port_probe bindable (probe_start instances) (probe_window instances)

/-- `MAX_RETRIES` from src/controller/reconciler.rs (also src/controller.rs). -/
def MAX_RETRIES : Nat := 10

/-- `VERIFY_DURATION_SECS` from src/controller/reconciler.rs (also
src/controller.rs). -/
def VERIFY_DURATION_SECS : Nat := 5

/-- The exhaustion message `"Failed to start container after {} attempts"`. -/
def start_fail_msg : String :=
  "Failed to start container after " ++ toString MAX_RETRIES ++ " attempts"

/-- A project: `Project` plus its `PGDConfig` (src/config.rs), flattened to
the fields the reconciler reads. -/
structure Project where
  name : String
  version : PostgresVersion
  password : String
  port : Nat
deriving DecidableEq, Repr

/-- `Project::container_name` (src/config.rs lines 94-102):
`"pgd-{name}-{version with dots replaced by underscores}"`. -/
def container_name (p : Project) : String :=
  "pgd-" ++ p.name ++ "-" ++
    String.mk ((ver_string p.version).toList.map
      (fun c => if c = '.' then '_' else c))

/-- Externally visible events of one reconcile run, in order: daemon calls,
sleeps, and ledger mutations. -/
inductive Event where
  | listImages
  | downloadImage (image : String)
  | inspectExists (id : String)
  | getVersion (id : String)
  | inspectRunning (id : String)
  | createContainer (name : String)
  | startContainer (id : String)
  | sleepVerify (secs : Nat)
  | sleepRetry (secs : Nat)
  | ledgerUpsert (project : String) (container_id : String)
      (version : PostgresVersion) (port : Nat)
  | ledgerSave
deriving DecidableEq, Repr

/-- Event classifiers used for counting. -/
def Event.isSave : Event → Bool
  | Event.ledgerSave => true
  | _ => false

def Event.isUpsert : Event → Bool
  | Event.ledgerUpsert _ _ _ _ => true
  | _ => false

def Event.isStart : Event → Bool
  | Event.startContainer _ => true
  | _ => false

def Event.isCreate : Event → Bool
  | Event.createContainer _ => true
  | _ => false

def Event.isRetrySleep : Event → Bool
  | Event.sleepRetry _ => true
  | _ => false

/-- `true` iff no `startContainer` event occurs before the first `ledgerSave`
event (vacuously `true` when no start occurs at all). -/
def save_before_first_start : List Event → Bool
  | [] => true
  | e :: rest =>
      if e.isStart then false
      else if e.isSave then true
      else save_before_first_start rest

/-- The container daemon's (and ledger file's) responses for one reconcile
run: the in-memory fake standing for the Runtime Client.  Per-attempt
responses of the start-retry loop are indexed by the 1-based attempt
number. -/
structure DockerOracle where
  listImagesResp : Except String (List String)
  downloadResp : String → Except String Unit
  inspectExistsResp : InspectResult
  getVersionResp : Except String PostgresVersion
  isRunningResp : Except String Bool
  createResp : Except String String
  saveResp : Except String Unit
  startResp : Nat → Except String Unit
  verifyResp : Nat → Except String Bool

/-- `format_image` (src/controller/docker.rs): `"postgres:{version}"`. -/
def format_image (v : PostgresVersion) : String := "postgres:" ++ ver_string v

/-- `DockerController::ensure_version_downloaded` (src/controller/docker.rs
lines 70-89): list local images; when the desired tag is absent, download
it. -/
def ensure_version_downloaded (o : DockerOracle) (v : PostgresVersion) :
    Except String Unit × List Event :=
  match o.listImagesResp with
  | Except.error e =>
      (Except.error ("failed to list installed docker images: " ++ e),
       [Event.listImages])
  | Except.ok tags =>
      let tag := format_image v
      if tag ∈ tags then (Except.ok (), [Event.listImages])
      else
        match o.downloadResp tag with
        | Except.error e =>
            (Except.error e, [Event.listImages, Event.downloadImage tag])
        | Except.ok _ =>
            (Except.ok (), [Event.listImages, Event.downloadImage tag])

/-- `Reconciler::update_project_container` (src/controller/reconciler.rs lines
161-188): create the container, then upsert the new ledger record and save,
returning the fresh container id. -/
def update_project_container (o : DockerOracle) (p : Project) :
    Except String String × List Event :=
  match o.createResp with
  | Except.error e => (Except.error e, [Event.createContainer (container_name p)])
  | Except.ok id =>
      let ev := [Event.createContainer (container_name p),
                 Event.ledgerUpsert p.name id p.version p.port,
                 Event.ledgerSave]
      match o.saveResp with
      | Except.error e => (Except.error e, ev)
      | Except.ok _ => (Except.ok id, ev)

/-- `Reconciler::ensure_container_exists` combined with the surrounding match
in `ensure_container_running` (src/controller/reconciler.rs lines 46-53 and
190-200): keep the recorded id if the runtime still knows it, otherwise (or
with no record at all) provision a new container. -/
def resolve_container_id (o : DockerOracle) (p : Project)
    (inst : Option String) : Except String String × List Event :=
  match inst with
  | some recorded_id =>
      (match container_exists_by_id o.inspectExistsResp with
       | Except.error e => (Except.error e, [Event.inspectExists recorded_id])
       | Except.ok true => (Except.ok recorded_id, [Event.inspectExists recorded_id])
       | Except.ok false =>
           let up := update_project_container o p
           (up.1, Event.inspectExists recorded_id :: up.2))
  | none => update_project_container o p

/-- `Reconciler::try_starting_container` (src/controller/reconciler.rs lines
121-159): issue a start call; on success sleep the 5-second verification
window (five one-second sleeps) and re-inspect; "running" is success,
"not running" or any error is a failed attempt. -/
def try_starting_container (o : DockerOracle) (id : String) (attempt : Nat) :
    Except String Unit × List Event :=
  match o.startResp attempt with
  | Except.error e => (Except.error ("Failed to start: " ++ e), [Event.startContainer id])
  | Except.ok _ =>
      let ev := Event.startContainer id ::
        (List.replicate VERIFY_DURATION_SECS (Event.sleepVerify 1) ++
          [Event.inspectRunning id])
      match o.verifyResp attempt with
      | Except.error e => (Except.error e, ev)
      | Except.ok true => (Except.ok (), ev)
      | Except.ok false =>
          (Except.error "Container stopped unexpectedly after start", ev)

/-- One iteration of the `for attempt in 1..=MAX_RETRIES` loop of
`Reconciler::ensure_container_running` (src/controller/reconciler.rs lines
85-115): a successful attempt returns `Ok` immediately; a failed attempt
sleeps one second and continues with the remaining attempts (`more`), or
bails with `start_fail_msg` when this was the last attempt (`more = none`). -/
def start_attempt_outcome (o : DockerOracle) (id : String) (attempt : Nat)
    (more : Option (Except String Unit × List Event)) :
    Except String Unit × List Event :=
  match (try_starting_container o id attempt).1 with
  | Except.ok _ =>
      (Except.ok (), (try_starting_container o id attempt).2)
  | Except.error _ =>
      match more with
      | none =>
          (Except.error start_fail_msg,
            (try_starting_container o id attempt).2)
      | some rest =>
          (rest.1, (try_starting_container o id attempt).2 ++
            Event.sleepRetry 1 :: rest.2)

/-- The whole retry loop (src/controller/reconciler.rs lines 85-118), as
structural recursion on the number of remaining attempts. -/
def start_retry_loop (o : DockerOracle) (id : String) :
    Nat → Nat → Except String Unit × List Event
  | _, 0 => (Except.error start_fail_msg, [])
  | attempt, 1 => start_attempt_outcome o id attempt none
  | attempt, remaining + 2 =>
      start_attempt_outcome o id attempt
        (some (start_retry_loop o id (attempt + 1) (remaining + 1)))

/-- Steps 2-4 of `Reconciler::ensure_container_running`
(src/controller/reconciler.rs lines 55-118) once a container id is resolved:
read the version label, drift-check it, return early when already running,
otherwise run the start-retry loop. -/
def version_and_start (o : DockerOracle) (p : Project) (container_id : String) :
    Except String Unit × List Event :=
  match o.getVersionResp with
  | Except.error e => (Except.error e, [Event.getVersion container_id])
  | Except.ok container_version =>
      match ensure_matches_project_version p.version container_version with
      | Except.error e => (Except.error e, [Event.getVersion container_id])
      | Except.ok _ =>
          match o.isRunningResp with
          | Except.error e =>
              (Except.error e,
               [Event.getVersion container_id, Event.inspectRunning container_id])
          | Except.ok true =>
              (Except.ok (),
               [Event.getVersion container_id, Event.inspectRunning container_id])
          | Except.ok false =>
              let lp := start_retry_loop o container_id 1 MAX_RETRIES
              (lp.1, Event.getVersion container_id ::
                Event.inspectRunning container_id :: lp.2)

/-- `Reconciler::ensure_container_running` (src/controller/reconciler.rs lines
46-119): resolve the container id, then version-check, running-check and
start. -/
def ensure_container_running (o : DockerOracle) (p : Project)
    (inst : Option String) : Except String Unit × List Event :=
  let rc := resolve_container_id o p inst
  match rc.1 with
  | Except.error e => (Except.error e, rc.2)
  | Except.ok container_id =>
      let vs := version_and_start o p container_id
      (vs.1, rc.2 ++ vs.2)

/-- `Reconciler::reconcile` (src/controller/reconciler.rs lines 35-44): ensure
the desired image is downloaded, then ensure the container is running. -/
def reconcile (o : DockerOracle) (p : Project) (inst : Option String) :
    Except String Unit × List Event :=
  let dl := ensure_version_downloaded o p.version
  match dl.1 with
  | Except.error e => (Except.error e, dl.2)
  | Except.ok _ =>
      let r := ensure_container_running o p inst
      (r.1, dl.2 ++ r.2)

/-- `(try_starting_container ...).1` is `ok`: the attempt's start-and-verify
succeeded. -/
def attempt_ok (o : DockerOracle) (id : String) (attempt : Nat) : Bool :=
  match (try_starting_container o id attempt).1 with
  | Except.ok _ => true
  | Except.error _ => false

/-- Legacy `Controller::update_project_container` (src/controller.rs lines
550-578): identical provisioning shape (create, set record, save). -/
def legacy_update_project_container (o : DockerOracle) (p : Project) :
    Except String String × List Event :=
  match o.createResp with
  | Except.error e => (Except.error e, [Event.createContainer (container_name p)])
  | Except.ok id =>
      let ev := [Event.createContainer (container_name p),
                 Event.ledgerUpsert p.name id p.version p.port,
                 Event.ledgerSave]
      match o.saveResp with
      | Except.error e => (Except.error e, ev)
      | Except.ok _ => (Except.ok id, ev)

/-- Legacy container-id resolution (src/controller.rs lines 472-481 and
580-590), same decision shape as the reconciler's. -/
def legacy_resolve_container_id (o : DockerOracle) (p : Project)
    (inst : Option String) : Except String String × List Event :=
  match inst with
  | some recorded_id =>
      (match container_exists_by_id o.inspectExistsResp with
       | Except.error e => (Except.error e, [Event.inspectExists recorded_id])
       | Except.ok true => (Except.ok recorded_id, [Event.inspectExists recorded_id])
       | Except.ok false =>
           let up := legacy_update_project_container o p
           (up.1, Event.inspectExists recorded_id :: up.2))
  | none => legacy_update_project_container o p

/-- Legacy `Controller::try_starting_container` (src/controller.rs lines
518-548).  Note the difference from the reconciler: a failed start call and a
failed running-verification both merely print and fall through to `Ok(())`;
only an error from the verification inspect itself (the `?`) is returned as
`Err`. -/
def legacy_try_starting_container (o : DockerOracle) (id : String)
    (attempt : Nat) : Except String Unit × List Event :=
  match o.startResp attempt with
  | Except.error _ => (Except.ok (), [Event.startContainer id])
  | Except.ok _ =>
      let ev := [Event.startContainer id,
                 Event.sleepVerify VERIFY_DURATION_SECS,
                 Event.inspectRunning id]
      match o.verifyResp attempt with
      | Except.error e => (Except.error e, ev)
      | Except.ok true => (Except.ok (), ev)
      | Except.ok false => (Except.ok (), ev)

/-- One iteration of the legacy retry loop (src/controller.rs lines 502-515):
`Ok(_) => break` leaves the loop, after which the `bail!` on line 515 runs
unconditionally, so a completed attempt yields the exhaustion error; an
`Err` result sleeps and retries while attempts remain. -/
def legacy_attempt_outcome (o : DockerOracle) (id : String) (attempt : Nat)
    (more : Option (Except String Unit × List Event)) :
    Except String Unit × List Event :=
  match (legacy_try_starting_container o id attempt).1 with
  | Except.ok _ =>
      (Except.error start_fail_msg,
        (legacy_try_starting_container o id attempt).2)
  | Except.error _ =>
      match more with
      | none =>
          (Except.error start_fail_msg,
            (legacy_try_starting_container o id attempt).2)
      | some rest =>
          (rest.1, (legacy_try_starting_container o id attempt).2 ++
            Event.sleepRetry 1 :: rest.2)

/-- The legacy retry loop (src/controller.rs lines 502-515) as structural
recursion on the remaining attempts. -/
def legacy_start_retry_loop (o : DockerOracle) (id : String) :
    Nat → Nat → Except String Unit × List Event
  | _, 0 => (Except.error start_fail_msg, [])
  | attempt, 1 => legacy_attempt_outcome o id attempt none
  | attempt, remaining + 2 =>
      legacy_attempt_outcome o id attempt
        (some (legacy_start_retry_loop o id (attempt + 1) (remaining + 1)))

/-- Steps 2-4 of the legacy `Controller::ensure_container_running`
(src/controller.rs lines 483-516) once a container id is resolved. -/
def legacy_version_and_start (o : DockerOracle) (p : Project)
    (container_id : String) : Except String Unit × List Event :=
  match o.getVersionResp with
  | Except.error e => (Except.error e, [Event.getVersion container_id])
  | Except.ok container_version =>
      match ensure_matches_project_version p.version container_version with
      | Except.error e => (Except.error e, [Event.getVersion container_id])
      | Except.ok _ =>
          match o.isRunningResp with
          | Except.error e =>
              (Except.error e,
               [Event.getVersion container_id, Event.inspectRunning container_id])
          | Except.ok true =>
              (Except.ok (),
               [Event.getVersion container_id, Event.inspectRunning container_id])
          | Except.ok false =>
              let lp := legacy_start_retry_loop o container_id 1 MAX_RETRIES
              (lp.1, Event.getVersion container_id ::
                Event.inspectRunning container_id :: lp.2)

/-- Legacy `Controller::ensure_container_running` (src/controller.rs lines
471-516). -/
def legacy_ensure_container_running (o : DockerOracle) (p : Project)
    (inst : Option String) : Except String Unit × List Event :=
  let rc := legacy_resolve_container_id o p inst
  match rc.1 with
  | Except.error e => (Except.error e, rc.2)
  | Except.ok container_id =>
      let vs := legacy_version_and_start o p container_id
      (vs.1, rc.2 ++ vs.2)

/-- A sample project used by concrete witnesses. -/
def sample_project : Project :=
  { name := "demo", version := ⟨16, 0⟩, password := "pw", port := 5432 }

/-- Baseline oracle: image present, recorded container found, version matched,
already running; create/save/start/verify all succeed. -/
def oracle_base : DockerOracle :=
  { listImagesResp := Except.ok ["postgres:16.0"]
    downloadResp := fun _ => Except.ok ()
    inspectExistsResp := InspectResult.found
    getVersionResp := Except.ok ⟨16, 0⟩
    isRunningResp := Except.ok true
    createResp := Except.ok "cid-new"
    saveResp := Except.ok ()
    startResp := fun _ => Except.ok ()
    verifyResp := fun _ => Except.ok true }

/-- Oracle for a project whose recorded container id is gone (404) and whose
fresh container starts on the first attempt. -/
def oracle_fresh : DockerOracle :=
  { oracle_base with
    inspectExistsResp := InspectResult.serverError 404 "no such container"
    isRunningResp := Except.ok false }

/-- Oracle whose start call fails on attempts 1-3 and succeeds from attempt 4
on. -/
def oracle_retry3 : DockerOracle :=
  { oracle_base with
    isRunningResp := Except.ok false
    startResp := fun i => if i < 4 then Except.error "boom" else Except.ok () }

/-- Oracle whose start call always fails. -/
def oracle_allfail : DockerOracle :=
  { oracle_base with
    isRunningResp := Except.ok false
    startResp := fun _ => Except.error "boom" }

/-- Oracle that reaches the start loop and succeeds immediately (used to
separate the legacy loop from the reconciler's). -/
def oracle_loop_ok : DockerOracle :=
  { oracle_base with isRunningResp := Except.ok false }

/- ------------------------------------------------------------------ -/
/- Helper lemmas                                                      -/
/- ------------------------------------------------------------------ -/

theorem isPrefixOf_self_append (n ys : List Char) :
    n.isPrefixOf (n ++ ys) = true := by
  induction n with
  | nil => simp [List.isPrefixOf]
  | cons a m ih => simp [List.isPrefixOf, ih]

theorem contains_chars_append_right (n xs ys : List Char)
    (h : contains_chars n ys = true) : contains_chars n (xs ++ ys) = true := by
  induction xs with
  | nil => simpa using h
  | cons x xs ih =>
      simp only [List.cons_append, contains_chars, Bool.or_eq_true]
      exact Or.inr ih

theorem contains_chars_self_append (n ys : List Char) :
    contains_chars n (n ++ ys) = true := by
  cases n with
  | nil =>
      cases ys with
      | nil => rfl
      | cons c rest => simp [contains_chars, List.isPrefixOf]
  | cons a m =>
      simp only [List.cons_append, contains_chars, Bool.or_eq_true]
      exact Or.inl (isPrefixOf_self_append (a :: m) ys)

theorem mem_of_isPrefixOf {n h : List Char} (hp : n.isPrefixOf h = true) :
    ∀ c ∈ n, c ∈ h := by
  induction n generalizing h with
  | nil => intro c hc; cases hc
  | cons a m ih =>
      cases h with
      | nil => simp [List.isPrefixOf] at hp
      | cons b t =>
          simp only [List.isPrefixOf, Bool.and_eq_true, beq_iff_eq] at hp
          intro c hc
          rcases List.mem_cons.mp hc with rfl | hc
          · exact hp.1 ▸ List.mem_cons_self _ _
          · exact List.mem_cons_of_mem _ (ih hp.2 c hc)

theorem mem_of_contains_chars {n h : List Char}
    (hc : contains_chars n h = true) : ∀ c ∈ n, c ∈ h := by
  induction h with
  | nil =>
      intro c hcn
      cases n with
      | nil => cases hcn
      | cons a m => simp [contains_chars, List.isEmpty] at hc
  | cons b t ih =>
      simp only [contains_chars, Bool.or_eq_true] at hc
      intro c hcn
      rcases hc with hp | hrec
      · exact mem_of_isPrefixOf hp c hcn
      · exact List.mem_cons_of_mem _ (ih hrec c hcn)

theorem string_toList_append (s t : String) :
    (s ++ t).toList = s.toList ++ t.toList := by
  simp [String.toList, String.data_append]

theorem dot_mem_ver_string (v : PostgresVersion) :
    '.' ∈ (ver_string v).toList := by
  unfold ver_string
  rw [string_toList_append, string_toList_append]
  refine List.mem_append.mpr (Or.inl ?_)
  refine List.mem_append.mpr (Or.inr ?_)
  decide

theorem upgrade_msg_names_no_version (v : PostgresVersion) :
    names_version upgrade_msg v = false := by
  cases hnv : names_version upgrade_msg v with
  | false => rfl
  | true =>
      have hmem := mem_of_contains_chars
        (by simpa [names_version] using hnv) '.' (dot_mem_ver_string v)
      exact absurd hmem (by decide)

theorem downgrade_msg_names_actual (a d : PostgresVersion) :
    names_version (downgrade_msg a d) a = true := by
  unfold names_version downgrade_msg
  rw [string_toList_append, string_toList_append, string_toList_append,
    string_toList_append]
  simp only [List.append_assoc]
  exact contains_chars_append_right _ _ _ (contains_chars_self_append _ _)

theorem downgrade_msg_names_desired (a d : PostgresVersion) :
    names_version (downgrade_msg a d) d = true := by
  unfold names_version downgrade_msg
  rw [string_toList_append, string_toList_append, string_toList_append,
    string_toList_append]
  simp only [List.append_assoc]
  refine contains_chars_append_right _ _ _ ?_
  refine contains_chars_append_right _ _ _ ?_
  refine contains_chars_append_right _ _ _ ?_
  exact contains_chars_self_append _ _

theorem pv_lt_ne {a b : PostgresVersion} (h : pv_lt a b = true) : a ≠ b := by
  cases a with
  | mk am an =>
      cases b with
      | mk bm bn =>
          simp only [pv_lt, Bool.or_eq_true, Bool.and_eq_true,
            decide_eq_true_eq] at h
          simp only [ne_eq, PostgresVersion.mk.injEq, not_and]
          omega

theorem pv_lt_asymm {a b : PostgresVersion} (h : pv_lt a b = true) :
    pv_lt b a = false := by
  cases a with
  | mk am an =>
      cases b with
      | mk bm bn =>
          rw [Bool.eq_false_iff]
          simp only [pv_lt, ne_eq, Bool.or_eq_true, Bool.and_eq_true,
            decide_eq_true_eq] at h ⊢
          omega

theorem pv_total {a b : PostgresVersion} (hne : a ≠ b)
    (hlt : pv_lt a b = false) : pv_lt b a = true := by
  cases a with
  | mk am an =>
      cases b with
      | mk bm bn =>
          simp only [ne_eq, PostgresVersion.mk.injEq, not_and] at hne
          rw [Bool.eq_false_iff] at hlt
          simp only [pv_lt, ne_eq, Bool.or_eq_true, Bool.and_eq_true,
            decide_eq_true_eq] at hlt ⊢
          omega

theorem empv_self (d : PostgresVersion) :
    ensure_matches_project_version d d = Except.ok () := by
  simp [ensure_matches_project_version]

theorem empv_upgrade {d a : PostgresVersion} (h : pv_lt a d = true) :
    ensure_matches_project_version d a = Except.error upgrade_msg := by
  unfold ensure_matches_project_version
  rw [if_pos (pv_lt_ne h), if_pos h]

theorem empv_downgrade {d a : PostgresVersion} (h : pv_lt d a = true) :
    ensure_matches_project_version d a =
      Except.error (downgrade_msg a d) := by
  unfold ensure_matches_project_version
  rw [if_pos (Ne.symm (pv_lt_ne h)), if_neg (by simp [pv_lt_asymm h])]

/- ------------------------------------------------------------------ -/
/- C7: 404 on inspect is a normal negative result                     -/
/- ------------------------------------------------------------------ -/

/-- C7: a 404 response from a container inspect call is surfaced by both
`container_exists` and `container_exists_by_id` as the normal negative
result `Ok(false)`, never as an error; a successful inspect yields
`Ok(true)`; every other inspect failure is propagated as an error. -/
theorem inspect_not_found_handling (r : InspectResult) :
    (container_exists_by_id r = Except.ok false ↔
      ∃ m, r = InspectResult.serverError 404 m) ∧
    (container_exists r = Except.ok false ↔
      ∃ m, r = InspectResult.serverError 404 m) ∧
    (r = InspectResult.found →
      container_exists_by_id r = Except.ok true ∧
      container_exists r = Except.ok true) ∧
    (∀ status msg, status ≠ 404 →
      container_exists_by_id (InspectResult.serverError status msg) =
        Except.error ("Failed to inspect container by ID: " ++ msg) ∧
      container_exists (InspectResult.serverError status msg) =
        Except.error ("Failed to inspect container: " ++ msg)) ∧
    (∀ msg,
      container_exists_by_id (InspectResult.otherError msg) =
        Except.error ("Failed to inspect container by ID: " ++ msg) ∧
      container_exists (InspectResult.otherError msg) =
        Except.error ("Failed to inspect container: " ++ msg)) := by
  refine ⟨?_, ?_, ?_, ?_, ?_⟩
  · cases r with
    | found => simp [container_exists_by_id]
    | serverError status msg =>
        by_cases hs : status = 404 <;>
          simp [container_exists_by_id, hs]
    | otherError msg => simp [container_exists_by_id]
  · cases r with
    | found => simp [container_exists]
    | serverError status msg =>
        by_cases hs : status = 404 <;>
          simp [container_exists, hs]
    | otherError msg => simp [container_exists]
  · rintro rfl
    exact ⟨rfl, rfl⟩
  · intro status msg hs
    exact ⟨by simp [container_exists_by_id, hs],
           by simp [container_exists, hs]⟩
  · intro msg
    exact ⟨rfl, rfl⟩

/-- Witness for `inspect_not_found_handling` at a concrete 404 response. -/
theorem inspect_not_found_handling_witness :
    container_exists_by_id (InspectResult.serverError 404 "gone") =
      Except.ok false :=
  (inspect_not_found_handling
    (InspectResult.serverError 404 "gone")).1.mpr ⟨"gone", rfl⟩

/- ------------------------------------------------------------------ -/
/- C3: version drift check                                            -/
/- ------------------------------------------------------------------ -/

theorem ecr_found (o : DockerOracle) (p : Project) (cid : String)
    (hex : o.inspectExistsResp = InspectResult.found) :
    ensure_container_running o p (some cid) =
      ((version_and_start o p cid).1,
        Event.inspectExists cid :: (version_and_start o p cid).2) := by
  simp [ensure_container_running, resolve_container_id, hex,
    container_exists_by_id]

theorem vas_inspectRunning_mem (o : DockerOracle) (p : Project) (cid : String)
    (hver : o.getVersionResp = Except.ok p.version) :
    Event.inspectRunning cid ∈ (version_and_start o p cid).2 := by
  simp only [version_and_start, hver, empv_self]
  cases o.isRunningResp with
  | error e => simp
  | ok b => cases b <;> simp

/-- C3 counterexample: with observed version 16.0 and desired version 17.0
the drift check takes the upgrade branch, whose error message is the fixed
string "Upgrades are currently unsupported! :(" — it does not name the
observed version 16.0 nor the desired version 17.0, contradicting the claim
that the upgrade error names both versions. -/
theorem version_drift_upgrade_counterexample :
    ensure_matches_project_version ⟨17, 0⟩ ⟨16, 0⟩ =
      Except.error upgrade_msg ∧
    names_version upgrade_msg ⟨16, 0⟩ = false ∧
    names_version upgrade_msg ⟨17, 0⟩ = false := by
  refine ⟨empv_upgrade (by decide), by decide, by decide⟩

/-- C3 (amended): the drift check compares desired against actual under the
lexicographic order on (major, minor).  Equal versions produce no drift error
and reconciliation proceeds to the running check; desired strictly greater
than actual fails with the fixed message "Upgrades are currently
unsupported! :(", which names neither version; desired strictly less than
actual fails with a downgrade message naming both the observed and the
desired version. -/
theorem version_drift_check (o : DockerOracle) (p : Project) (cid : String)
    (actual : PostgresVersion)
    (hex : o.inspectExistsResp = InspectResult.found)
    (hver : o.getVersionResp = Except.ok actual) :
    (actual = p.version →
      Event.inspectRunning cid ∈
        (ensure_container_running o p (some cid)).2) ∧
    (pv_lt actual p.version = true →
      (ensure_container_running o p (some cid)).1 =
        Except.error upgrade_msg ∧
      names_version upgrade_msg actual = false ∧
      names_version upgrade_msg p.version = false) ∧
    (pv_lt p.version actual = true →
      (ensure_container_running o p (some cid)).1 =
        Except.error (downgrade_msg actual p.version) ∧
      names_version (downgrade_msg actual p.version) actual = true ∧
      names_version (downgrade_msg actual p.version) p.version = true) := by
  have hecr := ecr_found o p cid hex
  refine ⟨?_, ?_, ?_⟩
  · intro heq
    rw [hecr]
    subst heq
    exact List.mem_cons_of_mem _ (vas_inspectRunning_mem o p cid hver)
  · intro hlt
    refine ⟨?_, upgrade_msg_names_no_version actual,
      upgrade_msg_names_no_version p.version⟩
    rw [hecr]
    simp [version_and_start, hver, empv_upgrade hlt]
  · intro hlt
    refine ⟨?_, downgrade_msg_names_actual actual p.version,
      downgrade_msg_names_desired actual p.version⟩
    rw [hecr]
    simp [version_and_start, hver, empv_downgrade hlt]

/-- Witness for `version_drift_check`: observed 17.0/desired 16.0 hits the
downgrade error. -/
theorem version_drift_check_witness :
    (ensure_container_running
      { oracle_base with getVersionResp := Except.ok ⟨17, 0⟩ }
      sample_project (some "cid")).1 =
      Except.error (downgrade_msg ⟨17, 0⟩ sample_project.version) :=
  ((version_drift_check
      { oracle_base with getVersionResp := Except.ok ⟨17, 0⟩ }
      sample_project "cid" ⟨17, 0⟩ rfl rfl).2.2 (by decide)).1

/- ------------------------------------------------------------------ -/
/- C8: persisted ledger record shape                                  -/
/- ------------------------------------------------------------------ -/

/-- C8 counterexample: the serialized ledger record of a concrete
`InstanceState` carries seven fields, not the four claimed fields
container_id/postgres_version/port/created_at. -/
theorem ledger_record_fields_counterexample :
    jx_field_names (instance_state_to_jx
      (InstanceState.new "container123" "16.0" "postgres" "postgres"
        5432 1700000000)) =
      ["container_id", "postgres_version", "database_name", "user_name",
       "port", "created_at", "last_started_at"] ∧
    ["container_id", "postgres_version", "database_name", "user_name",
       "port", "created_at", "last_started_at"] ≠
      ["container_id", "postgres_version", "port", "created_at"] := by
  exact ⟨rfl, by decide⟩

/-- C8 (amended): each persisted ledger record consists of exactly the seven
fields container_id (string), postgres_version (string), database_name
(string), user_name (string), port (integer), created_at (unix-seconds
integer), last_started_at (integer or null), in this order, and the ledger
document is a top-level object whose single field `instances` maps each
project name to its record. -/
theorem ledger_record_fields (s : InstanceState)
    (instances : List (String × InstanceState)) :
    jx_field_names (instance_state_to_jx s) =
      ["container_id", "postgres_version", "database_name", "user_name",
       "port", "created_at", "last_started_at"] ∧
    jx_field_names (state_manager_to_jx instances) = ["instances"] ∧
    ∃ entries, state_manager_to_jx instances =
        Jx.jobj [("instances", Jx.jobj entries)] ∧
      entries.map Prod.fst = instances.map Prod.fst := by
  refine ⟨rfl, rfl, _, rfl, ?_⟩
  simp

/- ------------------------------------------------------------------ -/
/- C5: port allocation                                                -/
/- ------------------------------------------------------------------ -/

theorem port_probe_ok_iff (bindable : Nat → Bool) (f s pt : Nat) :
    port_probe bindable s f = Except.ok pt ↔
      (s ≤ pt ∧ pt < s + f ∧ bindable pt = true ∧
        ∀ q, s ≤ q → q < pt → bindable q = false) := by
  induction f generalizing s with
  | zero =>
      simp only [port_probe]
      constructor
      · intro h; exact absurd h (by simp)
      · rintro ⟨h1, h2, -, -⟩; omega
  | succ f ih =>
      simp only [port_probe]
      by_cases hb : bindable s = true
      · rw [if_pos hb]
        constructor
        · intro h
          obtain rfl : s = pt := by simpa using h
          refine ⟨Nat.le_refl s, by omega, hb, fun q h1 h2 => ?_⟩
          exact absurd (Nat.lt_of_le_of_lt h1 h2) (Nat.lt_irrefl s)
        · rintro ⟨h1, h2, h3, h4⟩
          rcases Nat.lt_or_ge s pt with hlt | hge
          · have := h4 s (Nat.le_refl s) hlt
            rw [this] at hb
            exact absurd hb (by simp)
          · have : pt = s := Nat.le_antisymm (Nat.le_of_lt_succ (by omega)) h1
            rw [this]
      · have hbf : bindable s = false := by
          cases hx : bindable s with
          | true => exact absurd hx hb
          | false => rfl
        rw [if_neg hb, ih (s + 1)]
        constructor
        · rintro ⟨h1, h2, h3, h4⟩
          refine ⟨by omega, by omega, h3, fun q hq1 hq2 => ?_⟩
          rcases Nat.lt_or_ge q (s + 1) with hq | hq
          · have : q = s := by omega
            rw [this]; exact hbf
          · exact h4 q hq hq2
        · rintro ⟨h1, h2, h3, h4⟩
          have hne : pt ≠ s := by
            intro heq; rw [heq, hbf] at h3; exact absurd h3 (by simp)
          refine ⟨by omega, by omega, h3, fun q hq1 hq2 => h4 q (by omega) hq2⟩

theorem port_probe_error_iff (bindable : Nat → Bool) (f s : Nat) :
    port_probe bindable s f = Except.error port_exhaust_msg ↔
      ∀ q, s ≤ q → q < s + f → bindable q = false := by
  induction f generalizing s with
  | zero =>
      simp only [port_probe]
      constructor
      · intro _ q h1 h2; exact absurd h1 (by omega)
      · intro _; trivial
  | succ f ih =>
      simp only [port_probe]
      by_cases hb : bindable s = true
      · rw [if_pos hb]
        constructor
        · intro h; exact absurd h (by simp)
        · intro hall
          have := hall s (Nat.le_refl s) (by omega)
          rw [this] at hb
          exact absurd hb (by simp)
      · rw [if_neg hb, ih (s + 1)]
        have hbf : bindable s = false := by
          cases hx : bindable s with
          | true => exact absurd hx hb
          | false => rfl
        constructor
        · intro hall q h1 h2
          rcases Nat.lt_or_ge q (s + 1) with hq | hq
          · have : q = s := by omega
            rw [this]; exact hbf
          · exact hall q hq (by omega)
        · intro hall q h1 h2
          exact hall q (by omega) (by omega)

/-- C5 counterexample: the probe starts at
`get_highest_used_port().unwrap_or(5432)`, not at `max(highest, 5432)` — a
ledger whose highest recorded port is 100 makes the allocator return 100
when everything is bindable, not 5432; and with recorded ports {5432, 5433}
the first probed port is 5433, so the allocator returns 5433 (not 5434) when
5433 itself is bindable. -/
theorem find_available_port_counterexample :
    find_available_port (fun _ => true)
      [("p", InstanceState.new "c1" "16.0" "postgres" "postgres" 100 0)] =
      Except.ok 100 ∧
    (100 : Nat) ≠ 5432 ∧
    find_available_port (fun _ => true)
      [("a", InstanceState.new "c1" "16.0" "postgres" "postgres" 5432 0),
       ("b", InstanceState.new "c2" "16.0" "postgres" "postgres" 5433 0)] =
      Except.ok 5433 ∧
    (5433 : Nat) ≠ 5434 := by
  refine ⟨rfl, by decide, rfl, by decide⟩

/-- C5 (amended): `find_available_port` begins its linear probe at the
highest ledger-recorded port when the ledger is nonempty (at the default
5432 when it is empty).  When the u16 end bound `starting_port + 100` does
not overflow, it probes that window of 100 consecutive ports, returns the
first bindable one, and fails with the fatal exhaustion error exactly when
none of them is bindable.  When the addition overflows u16 (highest
recorded port above 65435), the release-build range is empty and the
allocator immediately fails with the exhaustion error without probing any
port (a debug build panics at the same overflow, so no port is returned
either way).  With a ledger recording ports {5432, 5433} it returns 5434
when 5434 is bindable and 5433 is not. -/
theorem find_available_port_spec (bindable : Nat → Bool)
    (instances : List (String × InstanceState)) :
    (∀ pt, find_available_port bindable instances = Except.ok pt ↔
      (probe_start instances ≤ pt ∧
        pt < probe_start instances + probe_window instances ∧
        bindable pt = true ∧
        ∀ q, probe_start instances ≤ q → q < pt → bindable q = false)) ∧
    (find_available_port bindable instances = Except.error port_exhaust_msg ↔
      ∀ q, probe_start instances ≤ q →
        q < probe_start instances + probe_window instances →
        bindable q = false) ∧
    (probe_start instances + PORT_SEARCH_RANGE < 65536 →
      probe_window instances = PORT_SEARCH_RANGE) ∧
    (probe_start instances ≤ 65535 →
      65536 ≤ probe_start instances + PORT_SEARCH_RANGE →
      probe_window instances = 0 ∧
      find_available_port bindable instances =
        Except.error port_exhaust_msg) ∧
    probe_start [] = DEFAULT_POSTGRES_PORT ∧
    (∀ h, get_highest_used_port instances = some h →
      probe_start instances = h) := by
  refine ⟨fun pt => port_probe_ok_iff bindable (probe_window instances)
      (probe_start instances) pt,
    port_probe_error_iff bindable (probe_window instances)
      (probe_start instances),
    fun hlt => ?_, fun hle hof => ?_,
    rfl, fun h hh => by simp [probe_start, hh]⟩
  · unfold probe_window probe_end
    rw [Nat.mod_eq_of_lt hlt]
    omega
  · have hr : PORT_SEARCH_RANGE = 100 := rfl
    have hw : probe_window instances = 0 := by
      unfold probe_window probe_end
      rw [Nat.mod_eq_sub_mod hof, Nat.mod_eq_of_lt (by omega)]
      omega
    exact ⟨hw, by unfold find_available_port; rw [hw]; rfl⟩

/-- Witness for `find_available_port_spec`: ledger {5432, 5433}, only 5434
bindable, allocator returns 5434. -/
theorem find_available_port_spec_witness :
    find_available_port (fun q => decide (q = 5434))
      [("a", InstanceState.new "c1" "16.0" "postgres" "postgres" 5432 0),
       ("b", InstanceState.new "c2" "16.0" "postgres" "postgres" 5433 0)] =
      Except.ok 5434 := by
  refine ((find_available_port_spec (fun q => decide (q = 5434))
      [("a", InstanceState.new "c1" "16.0" "postgres" "postgres" 5432 0),
       ("b", InstanceState.new "c2" "16.0" "postgres" "postgres" 5433 0)]).1
    5434).mpr ⟨by decide, by decide, by decide, ?_⟩
  intro q h1 h2
  have hps : probe_start
      [("a", InstanceState.new "c1" "16.0" "postgres" "postgres" 5432 0),
       ("b", InstanceState.new "c2" "16.0" "postgres" "postgres" 5433 0)] =
      5433 := by decide
  rw [hps] at h1
  have hq : q = 5433 := by omega
  rw [hq]
  decide

/- ------------------------------------------------------------------ -/
/- Reconciler trace lemmas                                            -/
/- ------------------------------------------------------------------ -/

theorem evd_trace_form (o : DockerOracle) (v : PostgresVersion) :
    (ensure_version_downloaded o v).2 = [Event.listImages] ∨
    (ensure_version_downloaded o v).2 =
      [Event.listImages, Event.downloadImage (format_image v)] := by
  cases ho : o.listImagesResp with
  | error e => left; simp [ensure_version_downloaded, ho]
  | ok tags =>
      by_cases h : format_image v ∈ tags
      · left; simp [ensure_version_downloaded, ho, h]
      · cases hd : o.downloadResp (format_image v) with
        | error e => right; simp [ensure_version_downloaded, ho, h, hd]
        | ok u => right; simp [ensure_version_downloaded, ho, h, hd]

theorem evd_counts (o : DockerOracle) (v : PostgresVersion) (q : Event → Bool)
    (h1 : q Event.listImages = false)
    (h2 : ∀ s, q (Event.downloadImage s) = false) :
    ((ensure_version_downloaded o v).2).countP q = 0 := by
  rcases evd_trace_form o v with h | h <;> rw [h] <;>
    simp [List.countP_cons, h1, h2]

theorem countP_cons_true {p : Event → Bool} {a : Event} (h : p a = true)
    (l : List Event) : List.countP p (a :: l) = List.countP p l + 1 := by
  simp [List.countP_cons, h]

theorem countP_cons_false {p : Event → Bool} {a : Event} (h : p a = false)
    (l : List Event) : List.countP p (a :: l) = List.countP p l := by
  simp [List.countP_cons, h]

theorem attempt_ok_cases (o : DockerOracle) (id : String) (i : Nat) :
    (attempt_ok o id i = true →
      (try_starting_container o id i).1 = Except.ok ()) ∧
    (attempt_ok o id i = false →
      ∃ e, (try_starting_container o id i).1 = Except.error e) := by
  cases h : (try_starting_container o id i).1 with
  | ok u =>
      cases u
      exact ⟨fun _ => rfl, fun hc => by simp [attempt_ok, h] at hc⟩
  | error e =>
      exact ⟨fun hc => by simp [attempt_ok, h] at hc, fun _ => ⟨e, rfl⟩⟩

theorem try_trace_counts (o : DockerOracle) (id : String) (i : Nat) :
    ((try_starting_container o id i).2).countP Event.isStart = 1 ∧
    ((try_starting_container o id i).2).countP Event.isRetrySleep = 0 ∧
    ((try_starting_container o id i).2).countP Event.isSave = 0 ∧
    ((try_starting_container o id i).2).countP Event.isUpsert = 0 ∧
    ((try_starting_container o id i).2).countP Event.isCreate = 0 := by
  unfold try_starting_container
  cases hs : o.startResp i with
  | error e =>
      simp [List.countP_cons, Event.isStart, Event.isRetrySleep, Event.isSave,
        Event.isUpsert, Event.isCreate]
  | ok u =>
      cases hv : o.verifyResp i with
      | error e =>
          simp [VERIFY_DURATION_SECS, List.replicate, List.countP_cons,
            Event.isStart, Event.isRetrySleep, Event.isSave, Event.isUpsert,
            Event.isCreate]
      | ok b =>
          cases b <;>
            simp [VERIFY_DURATION_SECS, List.replicate, List.countP_cons,
              Event.isStart, Event.isRetrySleep, Event.isSave, Event.isUpsert,
              Event.isCreate]

theorem srl_zero (o : DockerOracle) (id : String) (a : Nat) :
    start_retry_loop o id a 0 = (Except.error start_fail_msg, []) := rfl

theorem srl_one (o : DockerOracle) (id : String) (a : Nat) :
    start_retry_loop o id a 1 = start_attempt_outcome o id a none := rfl

theorem srl_two (o : DockerOracle) (id : String) (a r : Nat) :
    start_retry_loop o id a (r + 1 + 1) =
      start_attempt_outcome o id a
        (some (start_retry_loop o id (a + 1) (r + 1))) := rfl

theorem srl_succ_ok (o : DockerOracle) (id : String) (a r : Nat)
    (h : (try_starting_container o id a).1 = Except.ok ()) :
    start_retry_loop o id a (r + 1) =
      (Except.ok (), (try_starting_container o id a).2) := by
  have hsao : ∀ more, start_attempt_outcome o id a more =
      (Except.ok (), (try_starting_container o id a).2) := by
    intro more; simp [start_attempt_outcome, h]
  cases r with
  | zero => rw [srl_one]; exact hsao none
  | succ r2 => rw [srl_two]; exact hsao _

theorem srl_succ_err_last (o : DockerOracle) (id : String) (a : Nat)
    (e : String) (h : (try_starting_container o id a).1 = Except.error e) :
    start_retry_loop o id a 1 =
      (Except.error start_fail_msg, (try_starting_container o id a).2) := by
  rw [srl_one]
  simp [start_attempt_outcome, h]

theorem srl_succ_err_more (o : DockerOracle) (id : String) (a r : Nat)
    (e : String) (h : (try_starting_container o id a).1 = Except.error e) :
    start_retry_loop o id a (r + 1 + 1) =
      ((start_retry_loop o id (a + 1) (r + 1)).1,
        (try_starting_container o id a).2 ++
          Event.sleepRetry 1 :: (start_retry_loop o id (a + 1) (r + 1)).2) := by
  rw [srl_two]
  simp [start_attempt_outcome, h]

theorem start_retry_loop_no_ledger (o : DockerOracle) (id : String) :
    ∀ r a,
      ((start_retry_loop o id a r).2).countP Event.isSave = 0 ∧
      ((start_retry_loop o id a r).2).countP Event.isUpsert = 0 ∧
      ((start_retry_loop o id a r).2).countP Event.isCreate = 0 := by
  intro r
  induction r with
  | zero => intro a; rw [srl_zero]; exact ⟨rfl, rfl, rfl⟩
  | succ r ih =>
      intro a
      obtain ⟨-, -, hsv, hup, hcr⟩ := try_trace_counts o id a
      cases ht : (try_starting_container o id a).1 with
      | ok u =>
          cases u
          rw [srl_succ_ok o id a r ht]
          exact ⟨hsv, hup, hcr⟩
      | error e =>
          cases r with
          | zero =>
              rw [srl_succ_err_last o id a e ht]
              exact ⟨hsv, hup, hcr⟩
          | succ r2 =>
              obtain ⟨ihs, ihu, ihc⟩ := ih (a + 1)
              rw [srl_succ_err_more o id a r2 e ht]
              refine ⟨?_, ?_, ?_⟩ <;>
                rw [List.countP_append, countP_cons_false rfl] <;>
                omega

theorem start_retry_loop_all_fail (o : DockerOracle) (id : String) :
    ∀ r a,
      (∀ i, a ≤ i → i < a + r → attempt_ok o id i = false) →
      (start_retry_loop o id a r).1 = Except.error start_fail_msg ∧
      ((start_retry_loop o id a r).2).countP Event.isStart = r ∧
      ((start_retry_loop o id a r).2).countP Event.isRetrySleep = r - 1 := by
  intro r
  induction r with
  | zero => intro a _; rw [srl_zero]; exact ⟨rfl, rfl, rfl⟩
  | succ r ih =>
      intro a hall
      obtain ⟨hstc, hslc, -, -, -⟩ := try_trace_counts o id a
      have hfa : attempt_ok o id a = false :=
        hall a (Nat.le_refl a) (by omega)
      obtain ⟨e, he⟩ := (attempt_ok_cases o id a).2 hfa
      cases r with
      | zero =>
          rw [srl_succ_err_last o id a e he]
          exact ⟨rfl, hstc, by rw [hslc]⟩
      | succ r2 =>
          obtain ⟨ihr, ihst, ihsl⟩ := ih (a + 1)
            (fun i hi1 hi2 => hall i (by omega) (by omega))
          rw [srl_succ_err_more o id a r2 e he]
          refine ⟨ihr, ?_, ?_⟩
          · rw [List.countP_append, countP_cons_false rfl, hstc, ihst]
            omega
          · rw [List.countP_append, countP_cons_true rfl, hslc, ihsl]
            omega

theorem start_retry_loop_succeeds (o : DockerOracle) (id : String) :
    ∀ r a k, a ≤ k → k < a + r →
      (∀ i, a ≤ i → i < k → attempt_ok o id i = false) →
      attempt_ok o id k = true →
      (start_retry_loop o id a r).1 = Except.ok () ∧
      ((start_retry_loop o id a r).2).countP Event.isStart = k - a + 1 ∧
      ((start_retry_loop o id a r).2).countP Event.isRetrySleep = k - a := by
  intro r
  induction r with
  | zero => intro a k h1 h2 _ _; exact absurd h2 (by omega)
  | succ r ih =>
      intro a k h1 h2 hfail hsucc
      obtain ⟨hstc, hslc, -, -, -⟩ := try_trace_counts o id a
      rcases Nat.eq_or_lt_of_le h1 with rfl | hlt
      · have hok := (attempt_ok_cases o id a).1 hsucc
        rw [srl_succ_ok o id a r hok]
        refine ⟨rfl, ?_, ?_⟩
        · rw [hstc]; omega
        · rw [hslc]; omega
      · have hfa : attempt_ok o id a = false := hfail a (Nat.le_refl a) hlt
        obtain ⟨e, he⟩ := (attempt_ok_cases o id a).2 hfa
        cases r with
        | zero => exact absurd h2 (by omega)
        | succ r2 =>
            obtain ⟨ihr, ihst, ihsl⟩ := ih (a + 1) k (by omega) (by omega)
              (fun i hi1 hi2 => hfail i (by omega) hi2) hsucc
            rw [srl_succ_err_more o id a r2 e he]
            refine ⟨ihr, ?_, ?_⟩
            · rw [List.countP_append, countP_cons_false rfl, hstc, ihst]
              omega
            · rw [List.countP_append, countP_cons_true rfl, hslc, ihsl]
              omega

theorem vas_err_version (o : DockerOracle) (p : Project) (cid e : String)
    (hv : o.getVersionResp = Except.error e) :
    version_and_start o p cid = (Except.error e, [Event.getVersion cid]) := by
  simp [version_and_start, hv]

theorem vas_drift (o : DockerOracle) (p : Project) (cid : String)
    (cv : PostgresVersion) (e : String)
    (hv : o.getVersionResp = Except.ok cv)
    (hm : ensure_matches_project_version p.version cv = Except.error e) :
    version_and_start o p cid = (Except.error e, [Event.getVersion cid]) := by
  simp [version_and_start, hv, hm]

theorem vas_err_running (o : DockerOracle) (p : Project) (cid : String)
    (cv : PostgresVersion) (e : String)
    (hv : o.getVersionResp = Except.ok cv)
    (hm : ensure_matches_project_version p.version cv = Except.ok ())
    (hr : o.isRunningResp = Except.error e) :
    version_and_start o p cid =
      (Except.error e,
        [Event.getVersion cid, Event.inspectRunning cid]) := by
  simp [version_and_start, hv, hm, hr]

theorem vas_already_running (o : DockerOracle) (p : Project) (cid : String)
    (cv : PostgresVersion)
    (hv : o.getVersionResp = Except.ok cv)
    (hm : ensure_matches_project_version p.version cv = Except.ok ())
    (hr : o.isRunningResp = Except.ok true) :
    version_and_start o p cid =
      (Except.ok (),
        [Event.getVersion cid, Event.inspectRunning cid]) := by
  simp [version_and_start, hv, hm, hr]

theorem vas_start_loop (o : DockerOracle) (p : Project) (cid : String)
    (cv : PostgresVersion)
    (hv : o.getVersionResp = Except.ok cv)
    (hm : ensure_matches_project_version p.version cv = Except.ok ())
    (hr : o.isRunningResp = Except.ok false) :
    version_and_start o p cid =
      ((start_retry_loop o cid 1 MAX_RETRIES).1,
        Event.getVersion cid :: Event.inspectRunning cid ::
          (start_retry_loop o cid 1 MAX_RETRIES).2) := by
  simp [version_and_start, hv, hm, hr]

theorem vas_no_ledger (o : DockerOracle) (p : Project) (cid : String) :
    ((version_and_start o p cid).2).countP Event.isSave = 0 ∧
    ((version_and_start o p cid).2).countP Event.isUpsert = 0 ∧
    ((version_and_start o p cid).2).countP Event.isCreate = 0 := by
  cases hv : o.getVersionResp with
  | error e => rw [vas_err_version o p cid e hv]; exact ⟨rfl, rfl, rfl⟩
  | ok cv =>
      cases hm : ensure_matches_project_version p.version cv with
      | error e => rw [vas_drift o p cid cv e hv hm]; exact ⟨rfl, rfl, rfl⟩
      | ok u =>
          cases u
          cases hr : o.isRunningResp with
          | error e =>
              rw [vas_err_running o p cid cv e hv hm hr]
              exact ⟨rfl, rfl, rfl⟩
          | ok b =>
              cases b with
              | true =>
                  rw [vas_already_running o p cid cv hv hm hr]
                  exact ⟨rfl, rfl, rfl⟩
              | false =>
                  obtain ⟨hs, hu, hc⟩ := start_retry_loop_no_ledger o cid
                    MAX_RETRIES 1
                  rw [vas_start_loop o p cid cv hv hm hr]
                  refine ⟨?_, ?_, ?_⟩ <;>
                    rw [countP_cons_false rfl, countP_cons_false rfl] <;>
                    assumption

theorem upc_frame (o : DockerOracle) (p : Project) :
    ((update_project_container o p).2).countP Event.isSave ≤ 1 ∧
    ((update_project_container o p).2).countP Event.isUpsert ≤ 1 ∧
    (((update_project_container o p).2).countP Event.isSave +
      ((update_project_container o p).2).countP Event.isUpsert ≠ 0 →
      ((update_project_container o p).2).countP Event.isCreate ≠ 0) := by
  cases hc : o.createResp with
  | error e =>
      have h : update_project_container o p =
          (Except.error e, [Event.createContainer (container_name p)]) := by
        simp [update_project_container, hc]
      rw [h]
      exact ⟨Nat.zero_le 1, Nat.zero_le 1, fun hne => absurd rfl hne⟩
  | ok id =>
      have h : (update_project_container o p).2 =
          [Event.createContainer (container_name p),
           Event.ledgerUpsert p.name id p.version p.port,
           Event.ledgerSave] := by
        cases hs : o.saveResp with
        | error e2 => simp [update_project_container, hc, hs]
        | ok u => simp [update_project_container, hc, hs]
      rw [h]
      exact ⟨Nat.le_refl 1, Nat.le_refl 1, fun _ => Nat.one_ne_zero⟩

theorem resolve_ledger_frame (o : DockerOracle) (p : Project)
    (inst : Option String) :
    ((resolve_container_id o p inst).2).countP Event.isSave ≤ 1 ∧
    ((resolve_container_id o p inst).2).countP Event.isUpsert ≤ 1 ∧
    (((resolve_container_id o p inst).2).countP Event.isSave +
      ((resolve_container_id o p inst).2).countP Event.isUpsert ≠ 0 →
      ((resolve_container_id o p inst).2).countP Event.isCreate ≠ 0) := by
  cases inst with
  | none =>
      have h : resolve_container_id o p none = update_project_container o p :=
        rfl
      rw [h]
      exact upc_frame o p
  | some rid =>
      cases he : container_exists_by_id o.inspectExistsResp with
      | error e =>
          have h : resolve_container_id o p (some rid) =
              (Except.error e, [Event.inspectExists rid]) := by
            simp [resolve_container_id, he]
          rw [h]
          exact ⟨Nat.zero_le 1, Nat.zero_le 1, fun hne => absurd rfl hne⟩
      | ok b =>
          cases b with
          | true =>
              have h : resolve_container_id o p (some rid) =
                  (Except.ok rid, [Event.inspectExists rid]) := by
                simp [resolve_container_id, he]
              rw [h]
              exact ⟨Nat.zero_le 1, Nat.zero_le 1, fun hne => absurd rfl hne⟩
          | false =>
              obtain ⟨h1, h2, h3⟩ := upc_frame o p
              have h : (resolve_container_id o p (some rid)).2 =
                  Event.inspectExists rid ::
                    (update_project_container o p).2 := by
                simp [resolve_container_id, he]
              rw [h, countP_cons_false rfl, countP_cons_false rfl,
                countP_cons_false rfl]
              exact ⟨h1, h2, h3⟩

theorem resolve_new_container (o : DockerOracle) (p : Project)
    (inst : Option String) (cid : String)
    (hins : inst = none ∨ (∃ rid m, inst = some rid ∧
      o.inspectExistsResp = InspectResult.serverError 404 m))
    (hcreate : o.createResp = Except.ok cid)
    (hsave : o.saveResp = Except.ok ()) :
    ∃ pre, resolve_container_id o p inst =
      (Except.ok cid, pre ++ [Event.createContainer (container_name p),
        Event.ledgerUpsert p.name cid p.version p.port, Event.ledgerSave]) ∧
      pre.countP Event.isStart = 0 ∧ pre.countP Event.isSave = 0 ∧
      pre.countP Event.isUpsert = 0 ∧ pre.countP Event.isCreate = 0 := by
  rcases hins with rfl | ⟨rid, m, rfl, hex⟩
  · refine ⟨[], ?_, rfl, rfl, rfl, rfl⟩
    simp [resolve_container_id, update_project_container, hcreate, hsave]
  · refine ⟨[Event.inspectExists rid], ?_, rfl, rfl, rfl, rfl⟩
    simp [resolve_container_id, update_project_container, hcreate, hsave,
      hex, container_exists_by_id]

theorem upc_ok (o : DockerOracle) (p : Project) (cid : String)
    (hcreate : o.createResp = Except.ok cid)
    (hsave : o.saveResp = Except.ok ()) :
    update_project_container o p =
      (Except.ok cid,
        [Event.createContainer (container_name p),
         Event.ledgerUpsert p.name cid p.version p.port,
         Event.ledgerSave]) := by
  simp [update_project_container, hcreate, hsave]

theorem ecr_resolved (o : DockerOracle) (p : Project) (inst : Option String)
    (cid : String) (ev : List Event)
    (h : resolve_container_id o p inst = (Except.ok cid, ev)) :
    ensure_container_running o p inst =
      ((version_and_start o p cid).1, ev ++ (version_and_start o p cid).2) := by
  simp [ensure_container_running, h]

theorem reconcile_dl_ok (o : DockerOracle) (p : Project) (inst : Option String)
    (h : (ensure_version_downloaded o p.version).1 = Except.ok ()) :
    reconcile o p inst =
      ((ensure_container_running o p inst).1,
        (ensure_version_downloaded o p.version).2 ++
          (ensure_container_running o p inst).2) := by
  simp [reconcile, h]

theorem sbfs_concat (xs ys : List Event)
    (hstart : xs.countP Event.isStart = 0)
    (hsave : xs.countP Event.isSave = 0) :
    save_before_first_start (xs ++ ys) = save_before_first_start ys := by
  induction xs with
  | nil => simp
  | cons e rest ih =>
      rw [List.countP_cons] at hstart hsave
      have hS : e.isStart = false := by
        cases h : e.isStart with
        | false => rfl
        | true => rw [h] at hstart; simp at hstart
      have hV : e.isSave = false := by
        cases h : e.isSave with
        | false => rfl
        | true => rw [h] at hsave; simp at hsave
      simp only [List.cons_append, save_before_first_start, hS, hV]
      simp only [Bool.false_eq_true, if_false]
      exact ih (by omega) (by omega)

/- ------------------------------------------------------------------ -/
/- C1: new record persisted before any start                          -/
/- ------------------------------------------------------------------ -/

/-- C1: for a project with no ledger entry, or whose recorded container id no
longer exists in the runtime (a 404 on inspect), `reconcile` performs exactly
one ledger upsert — recording exactly the container id returned by
`create_container` — and exactly one ledger save, and the save precedes
every start call of the run. -/
theorem reconcile_persists_new_record_before_start
    (o : DockerOracle) (p : Project) (inst : Option String) (cid : String)
    (himg : (ensure_version_downloaded o p.version).1 = Except.ok ())
    (hins : inst = none ∨ (∃ rid m, inst = some rid ∧
      o.inspectExistsResp = InspectResult.serverError 404 m))
    (hcreate : o.createResp = Except.ok cid)
    (hsave : o.saveResp = Except.ok ()) :
    ((reconcile o p inst).2).countP Event.isUpsert = 1 ∧
    Event.ledgerUpsert p.name cid p.version p.port ∈ (reconcile o p inst).2 ∧
    ((reconcile o p inst).2).countP Event.isSave = 1 ∧
    save_before_first_start ((reconcile o p inst).2) = true := by
  obtain ⟨pre, hres, hp1, hp2, hp3, hp4⟩ :=
    resolve_new_container o p inst cid hins hcreate hsave
  have hrec := reconcile_dl_ok o p inst himg
  have hecr := ecr_resolved o p inst cid _ hres
  have htr : (reconcile o p inst).2 =
      (ensure_version_downloaded o p.version).2 ++
        ((pre ++ [Event.createContainer (container_name p),
          Event.ledgerUpsert p.name cid p.version p.port,
          Event.ledgerSave]) ++ (version_and_start o p cid).2) := by
    rw [hrec, hecr]
  rw [htr]
  refine ⟨?_, ?_, ?_, ?_⟩
  · rw [List.countP_append, List.countP_append, List.countP_append,
      evd_counts o p.version Event.isUpsert rfl (fun s => rfl), hp3,
      (vas_no_ledger o p cid).2.1]
    rfl
  · simp
  · rw [List.countP_append, List.countP_append, List.countP_append,
      evd_counts o p.version Event.isSave rfl (fun s => rfl), hp2,
      (vas_no_ledger o p cid).1]
    rfl
  · rw [sbfs_concat _ _ (evd_counts o p.version Event.isStart rfl (fun s => rfl))
      (evd_counts o p.version Event.isSave rfl (fun s => rfl)),
      List.append_assoc, sbfs_concat pre _ hp1 hp2]
    rfl

/-- Witness for `reconcile_persists_new_record_before_start`: a recorded but
vanished container id, with create and save succeeding. -/
theorem reconcile_persists_witness :
    save_before_first_start
      ((reconcile oracle_fresh sample_project (some "cid-old")).2) = true :=
  (reconcile_persists_new_record_before_start oracle_fresh sample_project
    (some "cid-old") "cid-new" rfl
    (Or.inr ⟨"cid-old", "no such container", rfl, rfl⟩) rfl rfl).2.2.2

/- ------------------------------------------------------------------ -/
/- C2: start-retry loop accounting                                    -/
/- ------------------------------------------------------------------ -/

/-- C2: once reconcile reaches the start-retry loop (image present, recorded
container found, version matched, not yet running): when the first k-1
start-and-verify attempts fail and the k-th succeeds (k at most 10),
reconcile succeeds having issued exactly k start calls and k-1 one-second
inter-attempt delays; when every one of the 10 attempts fails, reconcile
fails with the exhaustion error after exactly 10 start calls and 9
inter-attempt delays, attempting nothing further. -/
theorem reconcile_start_retry (o : DockerOracle) (p : Project) (rid : String)
    (k : Nat)
    (himg : (ensure_version_downloaded o p.version).1 = Except.ok ())
    (hex : o.inspectExistsResp = InspectResult.found)
    (hver : o.getVersionResp = Except.ok p.version)
    (hrun : o.isRunningResp = Except.ok false) :
    (1 ≤ k → k ≤ MAX_RETRIES →
      (∀ i, 1 ≤ i → i < k → attempt_ok o rid i = false) →
      attempt_ok o rid k = true →
      (reconcile o p (some rid)).1 = Except.ok () ∧
      ((reconcile o p (some rid)).2).countP Event.isStart = k ∧
      ((reconcile o p (some rid)).2).countP Event.isRetrySleep = k - 1) ∧
    ((∀ i, 1 ≤ i → i ≤ MAX_RETRIES → attempt_ok o rid i = false) →
      (reconcile o p (some rid)).1 = Except.error start_fail_msg ∧
      ((reconcile o p (some rid)).2).countP Event.isStart = MAX_RETRIES ∧
      ((reconcile o p (some rid)).2).countP Event.isRetrySleep =
        MAX_RETRIES - 1) := by
  have hecr := ecr_found o p rid hex
  have hvas := vas_start_loop o p rid p.version hver (empv_self p.version) hrun
  have hrec := reconcile_dl_ok o p (some rid) himg
  have hres1 : (reconcile o p (some rid)).1 =
      (start_retry_loop o rid 1 MAX_RETRIES).1 := by
    rw [hrec, hecr, hvas]
  have htr : (reconcile o p (some rid)).2 =
      (ensure_version_downloaded o p.version).2 ++
        (Event.inspectExists rid :: Event.getVersion rid ::
          Event.inspectRunning rid ::
          (start_retry_loop o rid 1 MAX_RETRIES).2) := by
    rw [hrec, hecr, hvas]
  constructor
  · intro hk1 hk10 hfail hsucc
    obtain ⟨hr, hst, hsl⟩ := start_retry_loop_succeeds o rid MAX_RETRIES 1 k
      hk1 (by simp only [MAX_RETRIES] at hk10 ⊢; omega) hfail hsucc
    refine ⟨by rw [hres1, hr], ?_, ?_⟩
    · rw [htr, List.countP_append,
        evd_counts o p.version Event.isStart rfl (fun s => rfl),
        countP_cons_false rfl, countP_cons_false rfl, countP_cons_false rfl,
        hst]
      omega
    · rw [htr, List.countP_append,
        evd_counts o p.version Event.isRetrySleep rfl (fun s => rfl),
        countP_cons_false rfl, countP_cons_false rfl, countP_cons_false rfl,
        hsl]
      omega
  · intro hall
    obtain ⟨hr, hst, hsl⟩ := start_retry_loop_all_fail o rid MAX_RETRIES 1
      (fun i h1 h2 => hall i h1 (by simp only [MAX_RETRIES] at h2 ⊢; omega))
    refine ⟨by rw [hres1, hr], ?_, ?_⟩
    · rw [htr, List.countP_append,
        evd_counts o p.version Event.isStart rfl (fun s => rfl),
        countP_cons_false rfl, countP_cons_false rfl, countP_cons_false rfl,
        hst]
      rfl
    · rw [htr, List.countP_append,
        evd_counts o p.version Event.isRetrySleep rfl (fun s => rfl),
        countP_cons_false rfl, countP_cons_false rfl, countP_cons_false rfl,
        hsl]
      rfl

/-- Witness for `reconcile_start_retry`: start fails on attempts 1-3 and
succeeds on attempt 4; reconcile succeeds with 4 start calls and 3
inter-attempt sleeps. -/
theorem reconcile_start_retry_witness :
    (reconcile oracle_retry3 sample_project (some "cid")).1 = Except.ok () ∧
    ((reconcile oracle_retry3 sample_project (some "cid")).2).countP
      Event.isStart = 4 ∧
    ((reconcile oracle_retry3 sample_project (some "cid")).2).countP
      Event.isRetrySleep = 3 :=
  (reconcile_start_retry oracle_retry3 sample_project "cid" 4
    rfl rfl rfl rfl).1 (by omega) (by decide)
    (fun i h1 h2 => by interval_cases i <;> rfl) rfl

/- ------------------------------------------------------------------ -/
/- C4: idempotence when already converged                             -/
/- ------------------------------------------------------------------ -/

/-- C4: for a project whose recorded container exists in the runtime, is
version-matched and already running, reconcile performs zero create calls,
zero start calls, and no ledger write (no upsert, no save — the ledger file
is untouched byte for byte); and provided the image step succeeds it returns
success, a pure no-op. -/
theorem reconcile_noop_when_converged (o : DockerOracle) (p : Project)
    (cid : String)
    (hex : o.inspectExistsResp = InspectResult.found)
    (hver : o.getVersionResp = Except.ok p.version)
    (hrun : o.isRunningResp = Except.ok true) :
    ((reconcile o p (some cid)).2).countP Event.isCreate = 0 ∧
    ((reconcile o p (some cid)).2).countP Event.isStart = 0 ∧
    ((reconcile o p (some cid)).2).countP Event.isSave = 0 ∧
    ((reconcile o p (some cid)).2).countP Event.isUpsert = 0 ∧
    ((ensure_version_downloaded o p.version).1 = Except.ok () →
      (reconcile o p (some cid)).1 = Except.ok ()) := by
  have hecr := ecr_found o p cid hex
  have hvas := vas_already_running o p cid p.version hver (empv_self p.version)
    hrun
  have hecr2 : ensure_container_running o p (some cid) =
      (Except.ok (), [Event.inspectExists cid, Event.getVersion cid,
        Event.inspectRunning cid]) := by
    rw [hecr, hvas]
  cases hdl : (ensure_version_downloaded o p.version).1 with
  | error e =>
      have htr : (reconcile o p (some cid)).2 =
          (ensure_version_downloaded o p.version).2 := by
        simp [reconcile, hdl]
      refine ⟨?_, ?_, ?_, ?_, ?_⟩
      · rw [htr, evd_counts o p.version Event.isCreate rfl (fun s => rfl)]
      · rw [htr, evd_counts o p.version Event.isStart rfl (fun s => rfl)]
      · rw [htr, evd_counts o p.version Event.isSave rfl (fun s => rfl)]
      · rw [htr, evd_counts o p.version Event.isUpsert rfl (fun s => rfl)]
      · intro him
        simp at him
  | ok u =>
      cases u
      have hrec := reconcile_dl_ok o p (some cid) hdl
      have htr : (reconcile o p (some cid)).2 =
          (ensure_version_downloaded o p.version).2 ++
            [Event.inspectExists cid, Event.getVersion cid,
             Event.inspectRunning cid] := by
        rw [hrec, hecr2]
      refine ⟨?_, ?_, ?_, ?_, fun _ => ?_⟩
      · rw [htr, List.countP_append,
          evd_counts o p.version Event.isCreate rfl (fun s => rfl)]
        rfl
      · rw [htr, List.countP_append,
          evd_counts o p.version Event.isStart rfl (fun s => rfl)]
        rfl
      · rw [htr, List.countP_append,
          evd_counts o p.version Event.isSave rfl (fun s => rfl)]
        rfl
      · rw [htr, List.countP_append,
          evd_counts o p.version Event.isUpsert rfl (fun s => rfl)]
        rfl
      · rw [hrec, hecr2]

/-- Witness for `reconcile_noop_when_converged`: the fully converged sample
oracle; reconcile returns success. -/
theorem reconcile_noop_witness :
    (reconcile oracle_base sample_project (some "cid")).1 = Except.ok () :=
  (reconcile_noop_when_converged oracle_base sample_project "cid"
    rfl rfl rfl).2.2.2.2 rfl

/- ------------------------------------------------------------------ -/
/- C6: ledger frame condition                                         -/
/- ------------------------------------------------------------------ -/

/-- C6: every reconcile run performs at most one ledger upsert and at most
one ledger save, and any ledger write implies a create call happened — i.e.
only the new-container branch writes the ledger; no other branch, including
the start-retry loop, performs any persisted ledger mutation. -/
theorem reconcile_ledger_frame (o : DockerOracle) (p : Project)
    (inst : Option String) :
    ((reconcile o p inst).2).countP Event.isSave ≤ 1 ∧
    ((reconcile o p inst).2).countP Event.isUpsert ≤ 1 ∧
    (((reconcile o p inst).2).countP Event.isSave +
      ((reconcile o p inst).2).countP Event.isUpsert ≠ 0 →
      ((reconcile o p inst).2).countP Event.isCreate ≠ 0) := by
  cases hdl : (ensure_version_downloaded o p.version).1 with
  | error e =>
      have htr : (reconcile o p inst).2 =
          (ensure_version_downloaded o p.version).2 := by
        simp [reconcile, hdl]
      rw [htr, evd_counts o p.version Event.isSave rfl (fun s => rfl),
        evd_counts o p.version Event.isUpsert rfl (fun s => rfl)]
      exact ⟨Nat.zero_le 1, Nat.zero_le 1, fun h => absurd rfl h⟩
  | ok u =>
      cases u
      have hrec := reconcile_dl_ok o p inst hdl
      obtain ⟨f1, f2, f3⟩ := resolve_ledger_frame o p inst
      cases hrc : (resolve_container_id o p inst).1 with
      | error e =>
          have hecr : ensure_container_running o p inst =
              (Except.error e, (resolve_container_id o p inst).2) := by
            simp [ensure_container_running, hrc]
          have htr : (reconcile o p inst).2 =
              (ensure_version_downloaded o p.version).2 ++
                (resolve_container_id o p inst).2 := by
            rw [hrec, hecr]
          rw [htr, List.countP_append, List.countP_append, List.countP_append,
            evd_counts o p.version Event.isSave rfl (fun s => rfl),
            evd_counts o p.version Event.isUpsert rfl (fun s => rfl),
            evd_counts o p.version Event.isCreate rfl (fun s => rfl)]
          refine ⟨by omega, by omega, fun h => ?_⟩
          have := f3 (by omega)
          omega
      | ok cid =>
          have hecr : ensure_container_running o p inst =
              ((version_and_start o p cid).1,
                (resolve_container_id o p inst).2 ++
                  (version_and_start o p cid).2) := by
            simp [ensure_container_running, hrc]
          have htr : (reconcile o p inst).2 =
              (ensure_version_downloaded o p.version).2 ++
                ((resolve_container_id o p inst).2 ++
                  (version_and_start o p cid).2) := by
            rw [hrec, hecr]
          obtain ⟨v1, v2, v3⟩ := vas_no_ledger o p cid
          rw [htr, List.countP_append, List.countP_append, List.countP_append,
            List.countP_append, List.countP_append, List.countP_append,
            evd_counts o p.version Event.isSave rfl (fun s => rfl),
            evd_counts o p.version Event.isUpsert rfl (fun s => rfl),
            evd_counts o p.version Event.isCreate rfl (fun s => rfl),
            v1, v2, v3]
          refine ⟨by omega, by omega, fun h => ?_⟩
          have := f3 (by omega)
          omega

/-- Witness for `reconcile_ledger_frame` (the statement's only hypotheses are
inside the final implication): at the converged oracle, at most one save. -/
theorem reconcile_ledger_frame_witness :
    ((reconcile oracle_base sample_project none).2).countP Event.isSave ≤ 1 :=
  (reconcile_ledger_frame oracle_base sample_project none).1

/- ------------------------------------------------------------------ -/
/- C9: image check precedes everything                                -/
/- ------------------------------------------------------------------ -/

/-- C9: every reconcile run's very first daemon call is the local image
listing — before the ledger is consulted or any container is inspected —
and whenever the desired version's image is absent from the listing, the
second event is its download, on every path including the already-running
no-op path. -/
theorem reconcile_image_check_first (o : DockerOracle) (p : Project)
    (inst : Option String) :
    (∃ rest, (reconcile o p inst).2 = Event.listImages :: rest) ∧
    (∀ tags, o.listImagesResp = Except.ok tags →
      format_image p.version ∉ tags →
      ∃ rest, (reconcile o p inst).2 =
        Event.listImages ::
          Event.downloadImage (format_image p.version) :: rest) := by
  constructor
  · cases hdl : (ensure_version_downloaded o p.version).1 with
    | error e =>
        have htr : (reconcile o p inst).2 =
            (ensure_version_downloaded o p.version).2 := by
          simp [reconcile, hdl]
        rcases evd_trace_form o p.version with h | h
        · exact ⟨[], by rw [htr, h]⟩
        · exact ⟨[Event.downloadImage (format_image p.version)],
            by rw [htr, h]⟩
    | ok u =>
        cases u
        have hrec := reconcile_dl_ok o p inst hdl
        rcases evd_trace_form o p.version with h | h
        · exact ⟨(ensure_container_running o p inst).2, by rw [hrec, h]; rfl⟩
        · exact ⟨Event.downloadImage (format_image p.version) ::
            (ensure_container_running o p inst).2, by rw [hrec, h]; rfl⟩
  · intro tags ho hmem
    have hdl2 : (ensure_version_downloaded o p.version).2 =
        [Event.listImages, Event.downloadImage (format_image p.version)] := by
      cases hd : o.downloadResp (format_image p.version) with
      | error e => simp [ensure_version_downloaded, ho, hmem, hd]
      | ok u => simp [ensure_version_downloaded, ho, hmem, hd]
    cases hdl : (ensure_version_downloaded o p.version).1 with
    | error e =>
        have htr : (reconcile o p inst).2 =
            (ensure_version_downloaded o p.version).2 := by
          simp [reconcile, hdl]
        exact ⟨[], by rw [htr, hdl2]⟩
    | ok u =>
        cases u
        have hrec := reconcile_dl_ok o p inst hdl
        exact ⟨(ensure_container_running o p inst).2,
          by rw [hrec, hdl2]; rfl⟩

/-- Witness for `reconcile_image_check_first`: no local image, the download
event follows the listing even on the converged path. -/
theorem reconcile_image_check_witness :
    ∃ rest, (reconcile { oracle_base with listImagesResp := Except.ok [] }
        sample_project (some "cid")).2 =
      Event.listImages ::
        Event.downloadImage (format_image sample_project.version) :: rest :=
  (reconcile_image_check_first
    { oracle_base with listImagesResp := Except.ok [] }
    sample_project (some "cid")).2 [] rfl (by simp)

/- ------------------------------------------------------------------ -/
/- C10: legacy controller.rs path versus reconciler.rs path           -/
/- ------------------------------------------------------------------ -/

theorem legacy_upc_eq (o : DockerOracle) (p : Project) :
    legacy_update_project_container o p = update_project_container o p := rfl

theorem legacy_resolve_eq (o : DockerOracle) (p : Project)
    (inst : Option String) :
    legacy_resolve_container_id o p inst = resolve_container_id o p inst := by
  cases inst with
  | none => rfl
  | some rid => rfl

theorem legacy_vas_eq_when_running (o : DockerOracle) (p : Project)
    (cid : String) (hrun : o.isRunningResp = Except.ok true) :
    legacy_version_and_start o p cid = version_and_start o p cid := by
  cases hv : o.getVersionResp with
  | error e => simp [legacy_version_and_start, version_and_start, hv]
  | ok cv =>
      cases hm : ensure_matches_project_version p.version cv with
      | error e =>
          simp [legacy_version_and_start, version_and_start, hv, hm]
      | ok u =>
          cases u
          simp [legacy_version_and_start, version_and_start, hv, hm, hrun]

theorem lao_fails (o : DockerOracle) (id : String) (a : Nat)
    (more : Option (Except String Unit × List Event))
    (h : ∀ pr, more = some pr → pr.1 = Except.error start_fail_msg) :
    (legacy_attempt_outcome o id a more).1 = Except.error start_fail_msg := by
  unfold legacy_attempt_outcome
  cases ht : (legacy_try_starting_container o id a).1 with
  | ok u => rfl
  | error e =>
      cases more with
      | none => rfl
      | some pr => exact h pr rfl

theorem legacy_loop_always_fails (o : DockerOracle) (id : String) :
    ∀ r a, (legacy_start_retry_loop o id a r).1 =
      Except.error start_fail_msg := by
  intro r
  induction r with
  | zero => intro a; rfl
  | succ r ih =>
      intro a
      cases r with
      | zero =>
          exact lao_fails o id a none (fun pr hpr => absurd hpr (by simp))
      | succ r2 =>
          exact lao_fails o id a
            (some (legacy_start_retry_loop o id (a + 1) (r2 + 1)))
            (fun pr hpr => Option.some.inj hpr ▸ ih (a + 1))

/-- C10 counterexample: a runtime-client response sequence (recorded
container found, version matched, not running, start succeeds, verification
finds it running) on which the reconciler's `ensure_container_running`
succeeds while the legacy `Controller::ensure_container_running` fails —
its retry loop breaks out on a completed attempt and the `bail!` after the
loop runs unconditionally.  This refutes the claimed behavioral
equivalence. -/
theorem legacy_equivalence_counterexample :
    (ensure_container_running oracle_loop_ok sample_project (some "cid")).1 =
      Except.ok () ∧
    (legacy_ensure_container_running oracle_loop_ok sample_project
      (some "cid")).1 = Except.error start_fail_msg :=
  ⟨rfl, rfl⟩

/-- C10 (amended): the two paths agree on every execution that stops before
the start-retry loop — in particular, whenever the running check reports
true they return identical results and traces — but they diverge once the
loop is reached: for every sequence of start/verify responses the legacy
path returns the exhaustion error ("Failed to start container after 10
attempts"), whereas the reconciler returns the retry loop's outcome and in
particular succeeds when an attempt's start-and-verify succeeds. -/
theorem legacy_vs_reconciler (o : DockerOracle) (p : Project)
    (inst : Option String) :
    (o.isRunningResp = Except.ok true →
      legacy_ensure_container_running o p inst =
        ensure_container_running o p inst) ∧
    (∀ rid, inst = some rid →
      o.inspectExistsResp = InspectResult.found →
      o.getVersionResp = Except.ok p.version →
      o.isRunningResp = Except.ok false →
      (legacy_ensure_container_running o p inst).1 =
        Except.error start_fail_msg ∧
      (ensure_container_running o p inst).1 =
        (start_retry_loop o rid 1 MAX_RETRIES).1 ∧
      (attempt_ok o rid 1 = true →
        (ensure_container_running o p inst).1 = Except.ok ())) := by
  constructor
  · intro hrun
    cases hrc : (resolve_container_id o p inst).1 with
    | error e =>
        have h1 : ensure_container_running o p inst =
            (Except.error e, (resolve_container_id o p inst).2) := by
          simp [ensure_container_running, hrc]
        have h1l : legacy_ensure_container_running o p inst =
            (Except.error e, (resolve_container_id o p inst).2) := by
          simp [legacy_ensure_container_running, legacy_resolve_eq, hrc]
        rw [h1, h1l]
    | ok cid =>
        have h1 : ensure_container_running o p inst =
            ((version_and_start o p cid).1,
              (resolve_container_id o p inst).2 ++
                (version_and_start o p cid).2) := by
          simp [ensure_container_running, hrc]
        have h1l : legacy_ensure_container_running o p inst =
            ((legacy_version_and_start o p cid).1,
              (resolve_container_id o p inst).2 ++
                (legacy_version_and_start o p cid).2) := by
          simp [legacy_ensure_container_running, legacy_resolve_eq, hrc]
        rw [h1, h1l, legacy_vas_eq_when_running o p cid hrun]
  · rintro rid rfl hex hver hrun
    have hres : resolve_container_id o p (some rid) =
        (Except.ok rid, [Event.inspectExists rid]) := by
      simp [resolve_container_id, hex, container_exists_by_id]
    have hecr := ecr_resolved o p (some rid) rid _ hres
    have hvas := vas_start_loop o p rid p.version hver (empv_self p.version)
      hrun
    have hlecr : (legacy_ensure_container_running o p (some rid)).1 =
        (legacy_version_and_start o p rid).1 := by
      simp [legacy_ensure_container_running, legacy_resolve_eq, hres]
    have hlvas : (legacy_version_and_start o p rid).1 =
        (legacy_start_retry_loop o rid 1 MAX_RETRIES).1 := by
      simp [legacy_version_and_start, hver, empv_self, hrun]
    refine ⟨?_, ?_, ?_⟩
    · rw [hlecr, hlvas]
      exact legacy_loop_always_fails o rid MAX_RETRIES 1
    · rw [hecr, hvas]
    · intro h1
      rw [hecr, hvas]
      have hsrl := srl_succ_ok o rid 1 9 ((attempt_ok_cases o rid 1).1 h1)
      rw [show MAX_RETRIES = 9 + 1 from rfl, hsrl]

/-- Witness for `legacy_vs_reconciler`: on the converged oracle the two
functions coincide exactly. -/
theorem legacy_vs_reconciler_witness :
    legacy_ensure_container_running oracle_base sample_project (some "cid") =
      ensure_container_running oracle_base sample_project (some "cid") :=
  (legacy_vs_reconciler oracle_base sample_project (some "cid")).1 rfl

end Pgd
